import Mathlib

/-!
Shallow embedding of the React hook layer of the reviewed repository
(`src/unnamed/part_000`: useVuex, useAsyncState, useStateHelper, useOnDestroy)
and of the RecordingHistory page controller
(`src/app/components-react/pages/RecordingHistory.tsx`).

Modelling conventions:
* a JavaScript plain object is a partial map from string keys to values
  (`JRec V := String → Option V`); the object spread `\x7b ...a, ...b \x7d`
  is the right-biased merge `mergeRec a b`;
* a promise is represented by its eventual settlement, an `Except` value;
  `Except.error` is a rejection, and a promise chained with `.then(f)` (no
  rejection handler) propagates errors unchanged;
* component lifecycle and asynchronous interleavings are event traces folded
  over an explicit per-instance state.
-/

namespace StreamlabsSpec

/-- A JavaScript record: a partial map from string field names to values. -/
def JRec (V : Type) : Type := String → Option V

/-- Right-biased shallow merge: the object spread `\x7b ...base, ...patch \x7d`.
Keys present in `patch` win; all other keys come from `base`. -/
def mergeRec {V : Type} (base patch : JRec V) : JRec V :=
  fun k => match patch k with
  | some v => some v
  | none => base k

/-- The one-field record `\x7b [x]: v \x7d`, used for computed-key patches. -/
def singletonRec {V : Type} (x : String) (v : V) : JRec V :=
  fun k => if k = x then some v else none

/-!
## useStateHelper (src/unnamed/part_000, lines 98-133)

`useStateHelper` keeps three pieces of per-instance data:
* `s`, the value of the last render (the `useState` snapshot) — field `rendered`;
* `stateRef.current`, a mirror updated synchronously by `setState` — field `current`;
* the value last passed to `setStateRaw`, which React will render next —
  field `scheduled`.
-/

/-- The per-instance state of a `useStateHelper` hook. -/
structure StateHelper (V : Type) where
  rendered : JRec V
  current : JRec V
  scheduled : Option (JRec V)

/-- A freshly rendered helper: `s` and `stateRef.current` both hold the same
value (`useRef(s)` initialises the mirror from the rendered state). -/
def mkHelper {V : Type} (s0 : JRec V) : StateHelper V :=
  { rendered := s0, current := s0, scheduled := none }

/-- `setState(newState)` (lines 104-108): writes the mirror `stateRef.current`
first, then hands `newState` to `setStateRaw`, which schedules a re-render. -/
def setState {V : Type} (h : StateHelper V) (newState : JRec V) : StateHelper V :=
  { h with current := newState, scheduled := some newState }

/-- `updateState(patch)` (lines 111-113):
`setState(\x7b ...stateRef.current, ...patch \x7d)` — the merge reads the
mirror, not the last-rendered value. -/
def updateState {V : Type} (h : StateHelper V) (patch : JRec V) : StateHelper V :=
  setState h (mergeRec h.current patch)

/-- The inner object of a field value: spreading `stateRef.current[d]` yields
the object's own entries when the field holds an object, and nothing
otherwise (spreading `undefined` or a primitive contributes no entries). -/
def innerObj {V : Type} : Option (JRec V) → JRec V
  | some m => m
  | none => fun _ => none

/-!
For `setItem` the state's field values must themselves be able to hold nested
records, so the helper is instantiated at a JavaScript-value type.
-/

/-- A JavaScript value as stored in a `useStateHelper` record: a primitive or
a nested object. -/
inductive JVal where
  | num : Int → JVal
  | str : String → JVal
  | boolean : Bool → JVal
  | obj : (String → Option JVal) → JVal

/-- View a field value as an object for spreading, per `innerObj`. -/
def asObj : Option JVal → JRec JVal
  | some (JVal.obj m) => m
  | _ => fun _ => none

/-- `setItem(dictionaryName, key, value)` (lines 119-128):
`setState(\x7b ...stateRef.current,
  [dictionaryName]: \x7b ...stateRef.current[dictionaryName], [key]: value \x7d \x7d)`. -/
def setItem (h : StateHelper JVal) (dictionaryName key : String) (value : JVal) :
    StateHelper JVal :=
  setState h
    (mergeRec h.current
      (singletonRec dictionaryName
        (JVal.obj (mergeRec (asObj (h.current dictionaryName)) (singletonRec key value)))))

/-- The descriptor returned by `bind(fieldName)`: the field name, the rendered
value of the field, and an `onChange` committing a new value for it. -/
structure BindDescriptor (V : Type) where
  name : String
  value : Option V
  onChange : V → StateHelper V

/-- Modelled from the spec: `createBinding` is imported from `./shared/inputs`,
which is not under `src/`. Spec §4.3: "`bind(fieldName)`: returns a descriptor
`\x7b name, value, onChange \x7d` suitable for two-way-binding a single field to an
input control; `onChange(newValue)` must be equivalent to
`updateState(\x7b [fieldName]: newValue \x7d)`." -/
def bind {V : Type} (h : StateHelper V) (fieldName : String) : BindDescriptor V :=
  { name := fieldName
    value := h.rendered fieldName
    onChange := fun newVal => updateState h (singletonRec fieldName newVal) }

/-!
## useVuex (src/unnamed/part_000, lines 9-30)

The hook has two overloads. Line 15 normalises them:
`const selector = args.length === 1 ? args[0] : () => args[1](args[0]);`
A selector is modelled by its dependence on the store's state (`S → α`); the
two-argument form's normalised selector `() => f(t)` closes over the target
and ignores the store state it is evaluated against.
-/

/-- The two call shapes of `useVuex`: a single no-argument selector, or a
target plus a selector receiving that target. -/
inductive VuexArgs (S T α : Type) where
  | one : (S → α) → VuexArgs S T α
  | two : T → (T → α) → VuexArgs S T α

/-- Line 15: the overload dispatch producing the selector actually used. -/
def selectorOfArgs {S T α : Type} : VuexArgs S T α → (S → α)
  | VuexArgs.one sel => sel
  | VuexArgs.two t f => fun _ => f t

/-- Per-instance state of a mounted `useVuex` hook: the held value, whether
the store watcher is still registered, and how many times the unsubscribe
handle was invoked. -/
structure VuexInst (α : Type) where
  held : α
  watching : Bool
  unsubCalls : Nat
deriving DecidableEq

/-- Lifecycle events after mount: a store mutation (delivering a watch
notification) or the component's unmount. -/
inductive VuexEvent (S : Type) where
  | storeUpdate : S → VuexEvent S
  | unmount : VuexEvent S
deriving DecidableEq

/-- Mount (line 16): `useState(selector)` evaluates the selector lazily
against the store's current state; the effect registers the watcher. -/
def vuexMount {S α : Type} (sel : S → α) (s0 : S) : VuexInst α :=
  { held := sel s0, watching := true, unsubCalls := 0 }

/-- One step of the subscription lifecycle. A store update re-evaluates the
selector and `setState`s the new value while the watcher is registered
(lines 18-23); unmount runs the effect cleanup, calling the unsubscribe
handle once (lines 24-26). -/
def vuexStep {S α : Type} (sel : S → α) (st : VuexInst α) : VuexEvent S → VuexInst α
  | VuexEvent.storeUpdate s =>
    if st.watching then { st with held := sel s } else st
  | VuexEvent.unmount =>
    if st.watching then { st with watching := false, unsubCalls := st.unsubCalls + 1 } else st

/-- A full `useVuex` run: mount with the normalised selector, then fold the
lifecycle events. -/
def useVuex {S T α : Type} (args : VuexArgs S T α) (s0 : S) (evs : List (VuexEvent S)) :
    VuexInst α :=
  evs.foldl (vuexStep (selectorOfArgs args)) (vuexMount (selectorOfArgs args) s0)

/-!
### The unmount cleanup's handling of the unsubscribe handle

`StatefulService.store.watch` is external; its returned handle may be a
function (which, when called, either returns or throws) or not a function at
all (`undefined`). The cleanup body (lines 24-26) is exactly
`() => \x7b unsubscribe(); \x7d`: the handle is invoked unconditionally, with no
guard and no try/catch. Calling a non-function raises a TypeError; a thrown
exception propagates out of the cleanup.
-/

/-- An unsubscribe handle as returned by the store's watch API: `none` for a
non-function value (`undefined`), `some f` for a function whose call either
returns (`Except.ok`) or throws (`Except.error`). -/
def UnsubHandle : Type := Option (Unit → Except String Unit)

/-- The effect cleanup of `useVuex` (lines 24-26): invoke the handle
unconditionally; invoking a non-function is a TypeError. -/
def vuexCleanup (unsubscribe : UnsubHandle) : Except String Unit :=
  match unsubscribe with
  | none => Except.error "TypeError: unsubscribe is not a function"
  | some f => f ()

/-- Whether the cleanup throws (propagates an exception to its caller). -/
def cleanupThrows (unsubscribe : UnsubHandle) : Bool :=
  match vuexCleanup unsubscribe with
  | Except.error _ => true
  | Except.ok _ => false

/-!
## RecordingHistory (src/app/components-react/pages/RecordingHistory.tsx)

The controller state needed by claims C9 and C10. Service interactions are
recorded explicitly: posted notifications, started YouTube uploads and
started storage uploads. `uploading` abbreviates
`RecordingModeService.state.uploadInfo.uploading`.
-/

/-- A notification pushed through `NotificationsService.actions.push`. -/
structure RHNotification where
  message : String
  ntype : String
  lifeTime : Nat
deriving DecidableEq

/-- The observable state of a `RecordingHistoryController`, together with the
record of service calls it has issued. -/
structure RHController where
  uploading : Bool
  hasSLID : Bool
  showSLIDModal : Bool
  notifications : List RHNotification
  youtubeUploads : List String
  storageUploads : List (String × String)
deriving DecidableEq

/-- `postError(message)` (lines 80-86): pushes a WARNING notification with a
5000 ms lifetime. -/
def postError (c : RHController) (msg : String) : RHController :=
  { c with notifications :=
      c.notifications ++ [{ message := msg, ntype := "WARNING", lifeTime := 5000 }] }

/-- `handleSelect(filename, platform)` (lines 93-106): refuse with a warning
while an upload is in progress; otherwise route to YouTube upload, storage
upload, or the SLID modal. -/
def handleSelect (c : RHController) (filename platform : String) : RHController :=
  if c.uploading then postError c "Upload already in progress"
  else if platform = "youtube" then
    { c with youtubeUploads := c.youtubeUploads ++ [filename] }
  else if c.hasSLID then
    { c with storageUploads := c.storageUploads ++ [(filename, platform)] }
  else
    { c with showSLIDModal := true }

/-- `ExportModal` (lines 237-264): returns `none` (renders nothing) when
either byte count is falsy, `if (!uploadedBytes || !totalBytes)`; otherwise
renders a progress bar whose `percent` is the division
`uploadedBytes / totalBytes`, modelled by its operand pair. -/
def ExportModal (uploadedBytes totalBytes : Nat) : Option (Nat × Nat) :=
  if uploadedBytes = 0 ∨ totalBytes = 0 then none
  else some (uploadedBytes, totalBytes)

/-!
## useAsyncState (src/unnamed/part_000, lines 50-76)

Per-instance data:
* `held` — the `useState` cell, initialised from `defaultState` (a value or a
  lazy factory, which `useState` invokes once);
* `isDestroyed` — the `let isDestroyed = false` binding of the first render.
  The `useMemo(..., [])` continuation and the `useOnDestroy` callback
  (`useEffect(() => cb, [])`, registered once on mount) both close over this
  first-render binding, so one shared flag per instance is faithful;
* `cbCalls`, `cbArgs` — bookkeeping of `asyncCb` invocations; `useMemo` with
  empty dependencies invokes its body exactly once, at first render;
* `memo` — the cached eventual outcome of the promise `asyncCb(state)`
  (`state` being the first-render value);
* `settled`, `promiseResult` — whether that promise has settled and, once the
  chained `.then` promise settles, its outcome. The `.then` callback returns
  `null` (modelled `Except.ok none`) without touching state when the flag is
  set; a rejection bypasses the `.then` callback and propagates.
-/

/-- `defaultState: TStateType | (() => TStateType)` — a value or a factory. -/
inductive DefaultState (σ : Type) where
  | value : σ → DefaultState σ
  | thunk : (Unit → σ) → DefaultState σ

/-- `useState(defaultState)`: a plain value is used as is, a function is
invoked as a lazy initializer. -/
def evalDefault {σ : Type} : DefaultState σ → σ
  | DefaultState.value v => v
  | DefaultState.thunk f => f ()

/-- Events after the first render of a `useAsyncState` instance: a re-render,
a call to the returned setter, the settlement of the initializer's promise,
or the unmount. -/
inductive AsyncEvent (σ : Type) where
  | rerender : AsyncEvent σ
  | setStateCall : σ → AsyncEvent σ
  | settle : AsyncEvent σ
  | unmount : AsyncEvent σ
deriving DecidableEq

/-- The per-instance state of a `useAsyncState` hook. -/
structure AsyncStateInst (σ ε : Type) where
  held : σ
  isDestroyed : Bool
  cbCalls : Nat
  cbArgs : List σ
  memo : Option (Except ε σ)
  settled : Bool
  promiseResult : Option (Except ε (Option σ))

/-- First render: evaluate the default, and (when `asyncCb` is supplied)
invoke it once with that initial state inside `useMemo(..., [])`, caching the
resulting promise. `asyncCb` is modelled by the eventual outcome of the
promise it returns. -/
def mountAsyncState {σ ε : Type} (dflt : DefaultState σ) (cb : Option (σ → Except ε σ)) :
    AsyncStateInst σ ε :=
  match cb with
  | none =>
    { held := evalDefault dflt, isDestroyed := false, cbCalls := 0, cbArgs := []
      memo := none, settled := false, promiseResult := none }
  | some f =>
    { held := evalDefault dflt, isDestroyed := false, cbCalls := 1
      cbArgs := [evalDefault dflt], memo := some (f (evalDefault dflt))
      settled := false, promiseResult := none }

/-- One lifecycle step. A re-render changes nothing persistent: `useState`
keeps the cell, `useMemo` with `[]` returns the cached promise without
re-invoking `asyncCb`, and the mount-registered effects do not re-run. The
setter writes the cell. Unmount runs the `useOnDestroy` cleanup, setting the
first-render `isDestroyed` flag. Settlement of the initializer's promise
runs the `.then` continuation on success — which returns `null` and leaves
the state alone when `isDestroyed` is set, and otherwise calls `setState`
and returns the new state — while a rejection propagates past the `.then`
(it has no rejection handler) without touching the state. -/
def asyncStep {σ ε : Type} (st : AsyncStateInst σ ε) : AsyncEvent σ → AsyncStateInst σ ε
  | AsyncEvent.rerender => st
  | AsyncEvent.setStateCall v => { st with held := v }
  | AsyncEvent.unmount => { st with isDestroyed := true }
  | AsyncEvent.settle =>
    if st.settled then st
    else
      match st.memo with
      | none => st
      | some (Except.error e) =>
        { st with settled := true, promiseResult := some (Except.error e) }
      | some (Except.ok v) =>
        if st.isDestroyed then
          { st with settled := true, promiseResult := some (Except.ok none) }
        else
          { st with settled := true, held := v, promiseResult := some (Except.ok (some v)) }

/-- Fold lifecycle events from an arbitrary instance state. -/
def runAsyncFrom {σ ε : Type} (st : AsyncStateInst σ ε) (evs : List (AsyncEvent σ)) :
    AsyncStateInst σ ε :=
  evs.foldl asyncStep st

/-- A full `useAsyncState` run: first render, then the given events. -/
def runAsyncState {σ ε : Type} (dflt : DefaultState σ) (cb : Option (σ → Except ε σ))
    (evs : List (AsyncEvent σ)) : AsyncStateInst σ ε :=
  runAsyncFrom (mountAsyncState dflt cb) evs

/-- A sample record for exercising `setItem`: field `a` holds a nested
object with entry `m`, field `b` holds a number. -/
def demoInner : String → Option JVal :=
  fun kk => if kk = "m" then some (JVal.num 2) else none

/-- The sample top-level record over `demoInner`. -/
def demoRec : JRec JVal :=
  fun key =>
    if key = "a" then some (JVal.obj demoInner)
    else if key = "b" then some (JVal.num 3)
    else none

/-!
## Theorems
-/

/-- Claim C2: for `useStateHelper`, two sequential patches in the same
synchronous turn compose without lost updates: `updateState q` then
`updateState p` before any re-render commits the record obtained by
shallow-merging `q` then `p` into the original record, because `updateState`
reads the mirror `stateRef.current`, which `setState` writes before
returning. The second conjunct states the same for an arbitrary helper state
whose mirror may already be ahead of the rendered value. -/
theorem C2_same_tick_patches_compose {V : Type} (s0 q p : JRec V) :
    (updateState (updateState (mkHelper s0) q) p).current = mergeRec (mergeRec s0 q) p
    ∧ ∀ h : StateHelper V,
        (updateState (updateState h q) p).current = mergeRec (mergeRec h.current q) p :=
  ⟨rfl, fun _ => rfl⟩

/-- Claim C3: for every field name `x` and value `v`, the `onChange` returned
by `bind x` applied to `v` commits exactly the state committed by
`updateState` with the one-field patch, from the same starting state — even
when the mirror already holds updates committed since the last render; at
every key the committed mirror holds `v` at `x` and the previous mirror value
elsewhere. (`createBinding` is modelled from the spec, see `bind`.) -/
theorem C3_bind_onChange_equals_updateState {V : Type} (h : StateHelper V) (x : String)
    (v : V) :
    (bind h x).onChange v = updateState h (singletonRec x v)
    ∧ ∀ k, ((bind h x).onChange v).current k = if k = x then some v else h.current k := by
  refine ⟨rfl, fun k => ?_⟩
  simp only [bind, updateState, setState, mergeRec, singletonRec]
  by_cases hk : k = x <;> simp [hk]

/-- Claim C7: `setItem d k v` changes only entry `k` of the nested record at
field `d`: every other top-level field keeps its previous mirror value, the
field `d` becomes the previous nested record with only `k` replaced by `v`,
and every other key of the nested record is unchanged. -/
theorem C7_setItem_frame (h : StateHelper JVal) (d k : String) (v : JVal)
    (inner : String → Option JVal)
    (hd : h.current d = some (JVal.obj inner)) :
    (∀ d', d' ≠ d → (setItem h d k v).current d' = h.current d')
    ∧ (setItem h d k v).current d = some (JVal.obj (mergeRec inner (singletonRec k v)))
    ∧ (∀ k', k' ≠ k → mergeRec inner (singletonRec k v) k' = inner k')
    ∧ mergeRec inner (singletonRec k v) k = some v := by
  refine ⟨fun d' hne => ?_, ?_, fun k' hne => ?_, ?_⟩
  · simp [setItem, setState, mergeRec, singletonRec, hne]
  · simp [setItem, setState, mergeRec, singletonRec, asObj, hd]
  · simp [mergeRec, singletonRec, hne]
  · simp [mergeRec, singletonRec]

/-- Witness for C7 at the sample record: `setItem "a" "k" 5` leaves field
`b` unchanged, rewrites field `a` to the merged nested record, leaves the
nested entry `m` unchanged and sets the nested entry `k`. -/
theorem C7_witness :
    (setItem (mkHelper demoRec) "a" "k" (JVal.num 5)).current "b" = some (JVal.num 3)
    ∧ (setItem (mkHelper demoRec) "a" "k" (JVal.num 5)).current "a"
        = some (JVal.obj (mergeRec demoInner (singletonRec "k" (JVal.num 5))))
    ∧ mergeRec demoInner (singletonRec "k" (JVal.num 5)) "m" = some (JVal.num 2)
    ∧ mergeRec demoInner (singletonRec "k" (JVal.num 5)) "k" = some (JVal.num 5) := by
  have h := C7_setItem_frame (mkHelper demoRec) "a" "k" (JVal.num 5) demoInner rfl
  exact ⟨(h.1 "b" (by decide)).trans rfl, h.2.1, (h.2.2.1 "m" (by decide)).trans rfl, h.2.2.2⟩

/-- Claim C8: the two call shapes of `useVuex` are behaviourally equivalent:
the target-plus-selector form runs the whole instance lifecycle — initial
value, every delivered value, watcher registration and unsubscription —
identically to the selector-only form whose selector is the normalised
closure evaluating the selector on the target; in particular the initial
held value is the selector applied to the target. -/
theorem C8_call_shapes_equivalent {S T α : Type} (t : T) (f : T → α) (s0 : S)
    (evs : List (VuexEvent S)) :
    useVuex (VuexArgs.two t f) s0 evs
        = useVuex ((VuexArgs.one fun _ => f t : VuexArgs S T α)) s0 evs
    ∧ (useVuex (VuexArgs.two t f) s0 []).held = f t :=
  ⟨rfl, rfl⟩

/-- Claim C9 (for `RecordingHistory`'s `ExportModal`): the upload progress
modal renders exactly when both `uploadedBytes` and `totalBytes` are truthy,
and whenever it renders, the operands of the progress fraction are those two
values with a non-zero divisor. -/
theorem C9_export_modal_guard (u t : Nat) :
    ((ExportModal u t).isSome ↔ (u ≠ 0 ∧ t ≠ 0))
    ∧ ∀ p : Nat × Nat, ExportModal u t = some p → p = (u, t) ∧ p.2 ≠ 0 := by
  constructor
  · by_cases hu : u = 0
    · simp [ExportModal, hu]
    · by_cases ht : t = 0 <;> simp [ExportModal, hu, ht]
  · intro p hp
    by_cases hu : u = 0
    · simp [ExportModal, hu] at hp
    · by_cases ht : t = 0
      · simp [ExportModal, hu, ht] at hp
      · simp [ExportModal, hu, ht] at hp
        exact ⟨hp.symm, by simp [← hp, ht]⟩

/-- Witness for C9 at `uploadedBytes = 3`, `totalBytes = 7`: the modal
renders with operands `(3, 7)` and the divisor is non-zero. -/
theorem C9_witness :
    ExportModal 3 7 = some (3, 7) ∧ ((3, 7) : Nat × Nat).2 ≠ 0 :=
  ⟨by decide, ((C9_export_modal_guard 3 7).2 (3, 7) (by decide)).2⟩

/-- Claim C10: when an upload is already in progress, `handleSelect` only
posts the warning notification and returns: for every filename and platform
the result is exactly `postError` on the warning text, so `showSLIDModal`,
the started YouTube uploads and the started storage uploads are unchanged
and the only effect is the appended WARNING notification. -/
theorem C10_uploading_guard (c : RHController) (filename platform : String)
    (h : c.uploading = true) :
    handleSelect c filename platform = postError c "Upload already in progress"
    ∧ (handleSelect c filename platform).showSLIDModal = c.showSLIDModal
    ∧ (handleSelect c filename platform).youtubeUploads = c.youtubeUploads
    ∧ (handleSelect c filename platform).storageUploads = c.storageUploads
    ∧ (handleSelect c filename platform).notifications
        = c.notifications
            ++ [{ message := "Upload already in progress", ntype := "WARNING",
                  lifeTime := 5000 }] := by
  refine ⟨?_, ?_, ?_, ?_, ?_⟩ <;> simp [handleSelect, postError, h]

/-- Witness for C10: with an upload in progress, selecting a file for the
`youtube` platform only posts the warning. -/
theorem C10_witness :
    handleSelect ⟨true, false, false, [], [], []⟩ "demo.mp4" "youtube"
      = postError ⟨true, false, false, [], [], []⟩ "Upload already in progress" :=
  (C10_uploading_guard ⟨true, false, false, [], [], []⟩ "demo.mp4" "youtube" rfl).1

/-- Counterexample to claim C4 as stated: the unmount cleanup of `useVuex`
does throw on a broken unsubscribe handle — both when the watch API returned
a non-function handle and when the unsubscribe function itself throws. -/
theorem C4_counterexample :
    cleanupThrows none = true
    ∧ cleanupThrows (some (fun _ => Except.error "store already torn down")) = true :=
  ⟨rfl, rfl⟩

/-- Claim C4 as amended: the cleanup invokes the unsubscribe handle
unconditionally with no defensive guard: a non-function handle raises a
TypeError, an exception thrown by the unsubscribe function propagates out of
the cleanup, and only a well-behaved unsubscribe completes silently. -/
theorem C4_cleanup_propagates (f : Unit → Except String Unit) (e : String) :
    cleanupThrows none = true
    ∧ (f () = Except.error e → vuexCleanup (some f) = Except.error e)
    ∧ (f () = Except.ok () → vuexCleanup (some f) = Except.ok ()) :=
  ⟨rfl, fun hf => hf, fun hf => hf⟩

/-- Witness for the amended C4: a throwing unsubscribe makes the cleanup
itself throw the same error. -/
theorem C4_witness :
    vuexCleanup (some (fun _ => Except.error "boom")) = Except.error "boom" :=
  (C4_cleanup_propagates (fun _ => Except.error "boom") "boom").2.1 rfl

/-!
### Lemmas about the `useAsyncState` lifecycle
-/

/-- No lifecycle step invokes `asyncCb` again or changes the memoised
promise: `useMemo` with empty dependencies computes once. -/
theorem asyncStep_cb_stable {σ ε : Type} (st : AsyncStateInst σ ε) (e : AsyncEvent σ) :
    (asyncStep st e).cbCalls = st.cbCalls
    ∧ (asyncStep st e).cbArgs = st.cbArgs
    ∧ (asyncStep st e).memo = st.memo := by
  cases e with
  | rerender => exact ⟨rfl, rfl, rfl⟩
  | setStateCall v => exact ⟨rfl, rfl, rfl⟩
  | unmount => exact ⟨rfl, rfl, rfl⟩
  | settle =>
    simp only [asyncStep]
    split
    · exact ⟨rfl, rfl, rfl⟩
    · rcases hm : st.memo with _ | x
      · simp [hm]
      · rcases x with e' | v
        · simp [hm]
        · simp only [hm]
          split <;> simp

/-- Run-level version of `asyncStep_cb_stable`. -/
theorem runAsyncFrom_cb_stable {σ ε : Type} (evs : List (AsyncEvent σ))
    (st : AsyncStateInst σ ε) :
    (runAsyncFrom st evs).cbCalls = st.cbCalls
    ∧ (runAsyncFrom st evs).cbArgs = st.cbArgs
    ∧ (runAsyncFrom st evs).memo = st.memo := by
  induction evs generalizing st with
  | nil => exact ⟨rfl, rfl, rfl⟩
  | cons e rest ih =>
    have h1 := asyncStep_cb_stable st e
    have h2 := ih (asyncStep st e)
    exact ⟨h2.1.trans h1.1, h2.2.1.trans h1.2.1, h2.2.2.trans h1.2.2⟩

/-- Without a settlement event, the settled flag and the chained promise's
outcome are unchanged; without a setter call as well, so is the held state. -/
theorem runAsyncFrom_no_settle {σ ε : Type} (evs : List (AsyncEvent σ))
    (st : AsyncStateInst σ ε) (hns : AsyncEvent.settle ∉ evs) :
    (runAsyncFrom st evs).settled = st.settled
    ∧ (runAsyncFrom st evs).promiseResult = st.promiseResult
    ∧ ((∀ v, AsyncEvent.setStateCall v ∉ evs) → (runAsyncFrom st evs).held = st.held) := by
  induction evs generalizing st with
  | nil => exact ⟨rfl, rfl, fun _ => rfl⟩
  | cons e rest ih =>
    have hns' : AsyncEvent.settle ∉ rest := fun hmem => hns (List.mem_cons_of_mem e hmem)
    have ih' := ih (asyncStep st e) hns'
    have hstep : (asyncStep st e).settled = st.settled
        ∧ (asyncStep st e).promiseResult = st.promiseResult := by
      cases e with
      | rerender => exact ⟨rfl, rfl⟩
      | setStateCall v => exact ⟨rfl, rfl⟩
      | unmount => exact ⟨rfl, rfl⟩
      | settle => exact absurd (List.mem_cons_self _ _) hns
    refine ⟨ih'.1.trans hstep.1, ih'.2.1.trans hstep.2, fun hnoset => ?_⟩
    have hnoset' : ∀ v, AsyncEvent.setStateCall v ∉ rest :=
      fun v hmem => hnoset v (List.mem_cons_of_mem e hmem)
    have hheld : (asyncStep st e).held = st.held := by
      cases e with
      | rerender => rfl
      | setStateCall v => exact absurd (List.mem_cons_self _ _) (hnoset v)
      | unmount => rfl
      | settle => exact absurd (List.mem_cons_self _ _) hns
    exact (ih'.2.2 hnoset').trans hheld

/-- Once the component is destroyed, it stays destroyed, and without setter
calls the held state is frozen: the settlement continuation refuses to apply
the async result. -/
theorem runAsyncFrom_destroyed_frozen {σ ε : Type} (evs : List (AsyncEvent σ))
    (st : AsyncStateInst σ ε) (hdes : st.isDestroyed = true)
    (hnoset : ∀ v, AsyncEvent.setStateCall v ∉ evs) :
    (runAsyncFrom st evs).held = st.held
    ∧ (runAsyncFrom st evs).isDestroyed = true := by
  induction evs generalizing st with
  | nil => exact ⟨rfl, hdes⟩
  | cons e rest ih =>
    have hnoset' : ∀ v, AsyncEvent.setStateCall v ∉ rest :=
      fun v hmem => hnoset v (List.mem_cons_of_mem e hmem)
    have hstep : (asyncStep st e).held = st.held ∧ (asyncStep st e).isDestroyed = true := by
      cases e with
      | rerender => exact ⟨rfl, hdes⟩
      | setStateCall v => exact absurd (List.mem_cons_self _ _) (hnoset v)
      | unmount => exact ⟨rfl, rfl⟩
      | settle =>
        simp only [asyncStep]
        split
        · exact ⟨rfl, hdes⟩
        · rcases st.memo with _ | x
          · exact ⟨rfl, hdes⟩
          · rcases x with e' | v
            · exact ⟨rfl, hdes⟩
            · simp [hdes]
    have ih' := ih (asyncStep st e) hstep.2 hnoset'
    exact ⟨ih'.1.trans hstep.1, ih'.2⟩

/-- Once the chained promise has settled, its outcome never changes again and
the settled flag stays set. -/
theorem runAsyncFrom_settled_persists {σ ε : Type} (evs : List (AsyncEvent σ))
    (st : AsyncStateInst σ ε) (hs : st.settled = true) :
    (runAsyncFrom st evs).settled = true
    ∧ (runAsyncFrom st evs).promiseResult = st.promiseResult := by
  induction evs generalizing st with
  | nil => exact ⟨hs, rfl⟩
  | cons e rest ih =>
    have hstep : (asyncStep st e).settled = true
        ∧ (asyncStep st e).promiseResult = st.promiseResult := by
      cases e with
      | rerender => exact ⟨hs, rfl⟩
      | setStateCall v => exact ⟨hs, rfl⟩
      | unmount => exact ⟨hs, rfl⟩
      | settle => simp [asyncStep, hs]
    have ih' := ih (asyncStep st e) hstep.1
    exact ⟨ih'.1, ih'.2.trans hstep.2⟩

/-- While the component is destroyed and the memoised promise will fulfil,
running any events without setter calls keeps the held state, and a
settlement makes the chained promise resolve to `null`. -/
theorem runAsyncFrom_destroyed_pending {σ ε : Type} (v₀ : σ) (evs : List (AsyncEvent σ))
    (st : AsyncStateInst σ ε)
    (hdes : st.isDestroyed = true)
    (hmemo : st.memo = some (Except.ok v₀))
    (hnoset : ∀ v, AsyncEvent.setStateCall v ∉ evs)
    (hs : st.settled = false) :
    (runAsyncFrom st evs).held = st.held
    ∧ (AsyncEvent.settle ∈ evs →
        (runAsyncFrom st evs).promiseResult = some (Except.ok none)) := by
  induction evs generalizing st with
  | nil => exact ⟨rfl, fun hmem => absurd hmem (List.not_mem_nil _)⟩
  | cons e rest ih =>
    have hnoset' : ∀ v, AsyncEvent.setStateCall v ∉ rest :=
      fun v hmem => hnoset v (List.mem_cons_of_mem e hmem)
    cases e with
    | rerender =>
      have ih' := ih st hdes hmemo hnoset' hs
      exact ⟨ih'.1, fun hmem => ih'.2 (by simpa using hmem)⟩
    | setStateCall v => exact absurd (List.mem_cons_self _ _) (hnoset v)
    | unmount =>
      have ih' := ih { st with isDestroyed := true } rfl hmemo hnoset' hs
      exact ⟨ih'.1, fun hmem => ih'.2 (by simpa using hmem)⟩
    | settle =>
      have hstep : asyncStep st AsyncEvent.settle
          = { st with settled := true, promiseResult := some (Except.ok none) } := by
        simp [asyncStep, hs, hmemo, hdes]
      rw [show runAsyncFrom st (AsyncEvent.settle :: rest)
            = runAsyncFrom (asyncStep st AsyncEvent.settle) rest from rfl, hstep]
      have hfrozen := runAsyncFrom_destroyed_frozen rest
        { st with settled := true, promiseResult := some (Except.ok none) } hdes hnoset'
      have hpers := runAsyncFrom_settled_persists rest
        { st with settled := true, promiseResult := some (Except.ok none) } rfl
      exact ⟨hfrozen.1, fun _ => hpers.2⟩

/-- While the memoised promise will reject, running any events without setter
calls keeps the held state — the rejection bypasses the `.then` continuation —
and a settlement makes the chained promise reject with the same error. -/
theorem runAsyncFrom_error_pending {σ ε : Type} (e : ε) (evs : List (AsyncEvent σ))
    (st : AsyncStateInst σ ε)
    (hmemo : st.memo = some (Except.error e))
    (hnoset : ∀ v, AsyncEvent.setStateCall v ∉ evs)
    (hs : st.settled = false) :
    (runAsyncFrom st evs).held = st.held
    ∧ (AsyncEvent.settle ∈ evs →
        (runAsyncFrom st evs).promiseResult = some (Except.error e)) := by
  induction evs generalizing st with
  | nil => exact ⟨rfl, fun hmem => absurd hmem (List.not_mem_nil _)⟩
  | cons ev rest ih =>
    have hnoset' : ∀ v, AsyncEvent.setStateCall v ∉ rest :=
      fun v hmem => hnoset v (List.mem_cons_of_mem ev hmem)
    cases ev with
    | rerender =>
      have ih' := ih st hmemo hnoset' hs
      exact ⟨ih'.1, fun hmem => ih'.2 (by simpa using hmem)⟩
    | setStateCall v => exact absurd (List.mem_cons_self _ _) (hnoset v)
    | unmount =>
      have ih' := ih { st with isDestroyed := true } hmemo hnoset' hs
      exact ⟨ih'.1, fun hmem => ih'.2 (by simpa using hmem)⟩
    | settle =>
      have hstep : asyncStep st AsyncEvent.settle
          = { st with settled := true, promiseResult := some (Except.error e) } := by
        simp [asyncStep, hs, hmemo]
      rw [show runAsyncFrom st (AsyncEvent.settle :: rest)
            = runAsyncFrom (asyncStep st AsyncEvent.settle) rest from rfl, hstep]
      have hpers := runAsyncFrom_settled_persists rest
        { st with settled := true, promiseResult := some (Except.error e) } rfl
      have hheld : ∀ rest' : List (AsyncEvent σ), (∀ v, AsyncEvent.setStateCall v ∉ rest') →
          ∀ st' : AsyncStateInst σ ε, st'.memo = some (Except.error e) →
          (runAsyncFrom st' rest').held = st'.held := by
        intro rest' hns'
        induction rest' with
        | nil => intro st' _; rfl
        | cons ev' rest'' ih'' =>
          intro st' hm'
          have hns'' : ∀ v, AsyncEvent.setStateCall v ∉ rest'' :=
            fun v hmem => hns' v (List.mem_cons_of_mem ev' hmem)
          have hstep' : (asyncStep st' ev').held = st'.held
              ∧ (asyncStep st' ev').memo = some (Except.error e) := by
            cases ev' with
            | rerender => exact ⟨rfl, hm'⟩
            | setStateCall v => exact absurd (List.mem_cons_self _ _) (hns' v)
            | unmount => exact ⟨rfl, hm'⟩
            | settle =>
              simp only [asyncStep]
              split
              · exact ⟨rfl, hm'⟩
              · rw [hm']
                exact ⟨rfl, rfl⟩
          exact ((ih'' hns'' (asyncStep st' ev') hstep'.2).trans hstep'.1)
      exact ⟨hheld rest hnoset' _ hmemo, fun _ => hpers.2⟩

/-- Claim C5: the asynchronous initializer, when supplied, is invoked exactly
once per hook instance — at first render and never on later events, however
many re-renders occur — and its only argument is the evaluated default
state. -/
theorem C5_initializer_invoked_once {σ ε : Type} (dflt : DefaultState σ)
    (f : σ → Except ε σ) (evs : List (AsyncEvent σ)) :
    (runAsyncState dflt (some f) evs).cbCalls = 1
    ∧ (runAsyncState dflt (some f) evs).cbArgs = [evalDefault dflt] := by
  have h := runAsyncFrom_cb_stable evs (mountAsyncState dflt (some f))
  exact ⟨h.1.trans rfl, h.2.1.trans rfl⟩

/-- Claim C1: if the component unmounts before the initializer's promise
resolves, the async result is never applied: the held state after the whole
trace equals the held state at unmount (the original default when nothing
was set synchronously before the unmount), and once the initializer resolves
after the unmount, the guarding promise resolves to `null`. -/
theorem C1_unmount_discards_async_result {σ ε : Type} (dflt : DefaultState σ)
    (f : σ → Except ε σ) (v₀ : σ) (pre post : List (AsyncEvent σ))
    (hok : f (evalDefault dflt) = Except.ok v₀)
    (hpre : AsyncEvent.settle ∉ pre)
    (hpost : ∀ v, AsyncEvent.setStateCall v ∉ post) :
    (runAsyncState (ε := ε) dflt (some f) (pre ++ AsyncEvent.unmount :: post)).held
      = (runAsyncState (ε := ε) dflt (some f) pre).held
    ∧ ((∀ v, AsyncEvent.setStateCall v ∉ pre) →
        (runAsyncState (ε := ε) dflt (some f) (pre ++ AsyncEvent.unmount :: post)).held
          = evalDefault dflt)
    ∧ (AsyncEvent.settle ∈ post →
        (runAsyncState (ε := ε) dflt (some f)
            (pre ++ AsyncEvent.unmount :: post)).promiseResult
          = some (Except.ok none)) := by
  have hsplit : runAsyncState (ε := ε) dflt (some f) (pre ++ AsyncEvent.unmount :: post)
      = runAsyncFrom
          (asyncStep (runAsyncFrom (mountAsyncState dflt (some f)) pre) AsyncEvent.unmount)
          post := by
    simp [runAsyncState, runAsyncFrom, List.foldl_append]
  set st1 := runAsyncFrom (mountAsyncState dflt (some f)) pre with hst1
  have hmemo1 : st1.memo = some (Except.ok v₀) := by
    have := (runAsyncFrom_cb_stable pre (mountAsyncState dflt (some f))).2.2
    rw [hst1, this]
    simp [mountAsyncState, hok]
  have hsettled1 : st1.settled = false :=
    ((runAsyncFrom_no_settle pre (mountAsyncState dflt (some f)) hpre).1).trans rfl
  have hstep : asyncStep st1 AsyncEvent.unmount = { st1 with isDestroyed := true } := rfl
  have hmain := runAsyncFrom_destroyed_pending v₀ post { st1 with isDestroyed := true }
    rfl hmemo1 hpost hsettled1
  refine ⟨?_, ?_, ?_⟩
  · rw [hsplit, hstep]
    exact hmain.1
  · intro hnopre
    rw [hsplit, hstep]
    have hpreheld : st1.held = evalDefault dflt :=
      ((runAsyncFrom_no_settle pre (mountAsyncState dflt (some f)) hpre).2.2 hnopre).trans
        (by simp [mountAsyncState])
    exact hmain.1.trans hpreheld
  · intro hmem
    rw [hsplit, hstep]
    exact hmain.2 hmem

/-- Witness for C1: default `0`, initializer resolving to `1`, unmount before
the settlement — the held state stays `0` and the guarding promise resolves
to `null`. -/
theorem C1_witness :
    (runAsyncState (DefaultState.value 0)
        (some fun _ => (Except.ok 1 : Except String Nat))
        ([] ++ AsyncEvent.unmount :: [AsyncEvent.settle])).held = 0
    ∧ (runAsyncState (DefaultState.value 0)
        (some fun _ => (Except.ok 1 : Except String Nat))
        ([] ++ AsyncEvent.unmount :: [AsyncEvent.settle])).promiseResult
      = some (Except.ok none) := by
  have h := C1_unmount_discards_async_result (DefaultState.value (0 : Nat))
    (fun _ => (Except.ok 1 : Except String Nat)) 1 [] [AsyncEvent.settle]
    rfl (by simp) (by intro v hv; simp at hv)
  exact ⟨h.2.1 (by intro v hv; simp at hv), h.2.2 (by simp)⟩

/-- Claim C6: if the initializer rejects, the rejection propagates through
the returned computation handle — once the promise settles, the handle
rejects with the same error for any awaiter — and the held state is never
updated from the failed computation: without setter calls it stays the
evaluated default for the whole trace. -/
theorem C6_rejection_propagates {σ ε : Type} (dflt : DefaultState σ)
    (f : σ → Except ε σ) (e : ε) (evs : List (AsyncEvent σ))
    (herr : f (evalDefault dflt) = Except.error e)
    (hnoset : ∀ v, AsyncEvent.setStateCall v ∉ evs) :
    (runAsyncState dflt (some f) evs).held = evalDefault dflt
    ∧ (AsyncEvent.settle ∈ evs →
        (runAsyncState dflt (some f) evs).promiseResult = some (Except.error e)) := by
  have hmemo : (mountAsyncState dflt (some f)).memo = some (Except.error e) := by
    simp [mountAsyncState, herr]
  have h := runAsyncFrom_error_pending e evs (mountAsyncState dflt (some f))
    hmemo hnoset rfl
  exact ⟨h.1.trans (by simp [mountAsyncState]), h.2⟩

/-- Witness for C6: default `0`, initializer rejecting with `"fail"` — after
the settlement the handle rejects with `"fail"` and the held state is still
`0`. -/
theorem C6_witness :
    (runAsyncState (DefaultState.value 0)
        (some fun _ => (Except.error "fail" : Except String Nat))
        [AsyncEvent.settle]).held = 0
    ∧ (runAsyncState (DefaultState.value 0)
        (some fun _ => (Except.error "fail" : Except String Nat))
        [AsyncEvent.settle]).promiseResult = some (Except.error "fail") := by
  have h := C6_rejection_propagates (DefaultState.value (0 : Nat))
    (fun _ => (Except.error "fail" : Except String Nat)) "fail" [AsyncEvent.settle]
    rfl (by intro v hv; simp at hv)
  exact ⟨h.1, h.2 (by simp)⟩

end StreamlabsSpec
